import Mathlib

/-!
A formal model of the retrieval core of the claude-context repository: the
OpenRouter embedding provider (`OpenRouterEmbedding`) and the ChromaDB
vector-store adapter (`ChromaDBVectorDatabase`).  Pure data manipulation is
translated directly from the TypeScript source.  The external chromadb
client and the remote embedding service, whose code is not part of the
repository, are modelled explicitly from the specification; every such
definition is marked `Modelled from the spec:`.  JavaScript numbers are
idealized as integers: the arithmetic is exact, and no claim settled here
depends on fractional values.
-/

/-- A JavaScript/JSON value, restricted to the shapes the adapter exchanges
with the backend: strings, numbers, booleans and objects. -/
inductive JsVal where
  | str : String → JsVal
  | num : ℤ → JsVal
  | bool : Bool → JsVal
  | obj : List (String × JsVal) → JsVal

/-- Lookup of a field in a JavaScript object literal.  Later entries shadow
earlier ones, matching the semantics of JavaScript spread syntax. -/
def metaGet (m : List (String × JsVal)) (k : String) : Option JsVal :=
  (m.reverse.find? (fun p => p.1 == k)).map (fun p => p.2)

/-- Equality test on scalar values, as used by the backend's equality
operator.  Objects never compare equal to anything. -/
def scalarEq : JsVal → JsVal → Bool
  | .str a, .str b => a == b
  | .num a, .num b => a == b
  | .bool a, .bool b => a == b
  | _, _ => false

/-- Modelled from the spec: JavaScript `String.split` with a one-character
separator (an ECMAScript builtin): the maximal chunks between separator
occurrences, written over the character list so it evaluates inside the
kernel. -/
def splitCharAux (sep : Char) : List Char → List Char → List String
  | [], acc => [String.mk acc.reverse]
  | c :: cs, acc =>
    if c = sep then String.mk acc.reverse :: splitCharAux sep cs []
    else splitCharAux sep cs (c :: acc)

def splitChar (sep : Char) (s : String) : List String :=
  splitCharAux sep s.data []

/-- ASCII whitespace. -/
def isWs (c : Char) : Bool :=
  c == ' ' || c == '\t' || c == '\n' || c == '\r'

/-- Modelled from the spec: JavaScript `String.trim` (an ECMAScript
builtin), stripping whitespace from both ends. -/
def jsTrim (s : String) : String :=
  String.mk (((s.data.dropWhile isWs).reverse.dropWhile isWs).reverse)

/-- Parse the body of a JSON string literal (no escape sequences), returning
the string and the remaining input. -/
def parseStrBody : List Char → List Char → Option (String × List Char)
  | [], _ => none
  | '"' :: cs, acc => some (String.mk acc.reverse, cs)
  | c :: cs, acc => parseStrBody cs (c :: acc)

/-- Parse a JSON string literal. -/
def parseStrLit : List Char → Option (String × List Char)
  | '"' :: cs => parseStrBody cs []
  | _ => none

/-- Parse the pairs of a one-level JSON object of string values, after the
opening brace. -/
def parseInnerPairs : Nat → List Char → List (String × JsVal) →
    Option (List (String × JsVal) × List Char)
  | 0, _, _ => none
  | fuel + 1, cs, acc =>
    match parseStrLit cs with
    | none => none
    | some (k, cs1) =>
      match cs1 with
      | ':' :: cs2 =>
        match parseStrLit cs2 with
        | none => none
        | some (v, cs3) =>
          match cs3 with
          | ',' :: cs4 => parseInnerPairs fuel cs4 (acc ++ [(k, JsVal.str v)])
          | '}' :: cs4 => some (acc ++ [(k, JsVal.str v)], cs4)
          | _ => none
      | _ => none

/-- Parse the pairs of a JSON object whose values are strings or one-level
nested objects of strings, after the opening brace. -/
def parsePairs : Nat → List Char → List (String × JsVal) →
    Option (List (String × JsVal) × List Char)
  | 0, _, _ => none
  | fuel + 1, cs, acc =>
    match parseStrLit cs with
    | none => none
    | some (k, cs1) =>
      match cs1 with
      | ':' :: cs2 =>
        match cs2 with
        | '{' :: csIn =>
          match parseInnerPairs (csIn.length + 1) csIn [] with
          | none => none
          | some (fields, cs3) =>
            match cs3 with
            | ',' :: cs4 => parsePairs fuel cs4 (acc ++ [(k, JsVal.obj fields)])
            | '}' :: cs4 => some (acc ++ [(k, JsVal.obj fields)], cs4)
            | _ => none
        | _ =>
          match parseStrLit cs2 with
          | none => none
          | some (v, cs3) =>
            match cs3 with
            | ',' :: cs4 => parsePairs fuel cs4 (acc ++ [(k, JsVal.str v)])
            | '}' :: cs4 => some (acc ++ [(k, JsVal.str v)], cs4)
            | _ => none
      | _ => none

/-- Modelled from the spec: `JSON.parse` is an ECMAScript builtin with no
source in the repository.  Only the fragment of JSON that the spec's filter
grammar involves is modelled: non-empty objects with string keys whose
values are strings or non-empty one-level nested objects of strings, written
without whitespace or escape sequences, plus bare string literals.  Every
other input is a parse failure, as it is for the builtin on every input used
in this development. -/
def jsonParse (s : String) : Option JsVal :=
  match s.data with
  | '"' :: _ =>
    match parseStrLit s.data with
    | some (v, []) => some (JsVal.str v)
    | _ => none
  | '{' :: rest =>
    match parsePairs (rest.length + 1) rest [] with
    | some (fields, []) => some (JsVal.obj fields)
    | _ => none
  | _ => none

namespace ChromaDB

/-- Translated from `ChromaDBVectorDatabase.parseFilterExpression`: try
`JSON.parse` on the filter string and pass the result through unchanged; on
parse failure split on the equals sign and build a single equality test when
the split has exactly two parts; otherwise return no clause at all. -/
def parseFilterExpression (filter : String) : Option JsVal :=
  match jsonParse filter with
  | some v => some v
  | none =>
    match splitChar '=' filter with
    | [a, b] => some (JsVal.obj [(jsTrim a, JsVal.obj [("$eq", JsVal.str (jsTrim b))])])
    | _ => none

/-- Translated from `ChromaDBVectorDatabase.buildWhereClause`: an absent
filter yields no clause; otherwise every field of the flat filter object is
wrapped in an equality test. -/
def buildWhereClause (filter : Option (List (String × JsVal))) : Option JsVal :=
  match filter with
  | none => none
  | some f => some (JsVal.obj (f.map (fun kv => (kv.1, JsVal.obj [("$eq", kv.2)]))))

/-- Modelled from the spec: `VectorDocument` of `types.ts` (repository code
not under src/); the fields are the ones the adapter reads. -/
structure VectorDocument where
  id : String
  vector : List ℤ
  content : String
  relativePath : String
  startLine : Nat
  endLine : Nat
  fileExtension : String
  metadata : List (String × JsVal)

/-- Modelled from the spec: one record held by the chromadb backend. -/
structure StoredRecord where
  id : String
  embedding : List ℤ
  metadata : List (String × JsVal)
  document : String

/-- Modelled from the spec: one backend collection, with the metadata the
adapter supplied at creation. -/
structure BCollection where
  name : String
  metadata : List (String × JsVal)
  records : List StoredRecord

/-- The chromadb server's state: its collections. -/
abbrev BackendState := List BCollection

def backendHas (b : BackendState) (n : String) : Bool :=
  b.any (fun c => c.name == n)

def recordsOf (b : BackendState) (n : String) : Option (List StoredRecord) :=
  (b.find? (fun c => c.name == n)).map (fun c => c.records)

def collMetaOf (b : BackendState) (n : String) : Option (List (String × JsVal)) :=
  (b.find? (fun c => c.name == n)).map (fun c => c.metadata)

def dimensionMetaOf (b : BackendState) (n : String) : Option JsVal :=
  (collMetaOf b n).bind (fun m => metaGet m "dimension")

def updateColl (b : BackendState) (n : String)
    (f : List StoredRecord → List StoredRecord) : BackendState :=
  b.map (fun c => if c.name == n then ⟨c.name, c.metadata, f c.records⟩ else c)

/-- The errors the chromadb client can surface; the adapter inspects error
messages for the substring "already exists". -/
inductive ClientErr where
  | alreadyExists : ClientErr
  | notFound : ClientErr
  | other : String → ClientErr

def ClientErr.isAlreadyExists : ClientErr → Bool
  | .alreadyExists => true
  | _ => false

/-- Modelled from the spec: the chromadb client's `createCollection` (the
chromadb package is not part of the repository).  Creating a name that
already exists fails with an "already exists" error; otherwise the new,
empty collection is appended with the supplied metadata. -/
def clientCreateCollection (b : BackendState) (n : String)
    (meta : List (String × JsVal)) : Except ClientErr BackendState :=
  if backendHas b n then Except.error ClientErr.alreadyExists
  else Except.ok (b ++ [⟨n, meta, []⟩])

/-- Modelled from the spec: the chromadb client's `getOrCreateCollection`:
an existing collection is returned untouched; an absent one is created
empty, with no metadata. -/
def clientGetOrCreateCollection (b : BackendState) (n : String) : BackendState :=
  if backendHas b n then b else b ++ [⟨n, [], []⟩]

/-- Modelled from the spec: storing one record of a chromadb `add` payload.
A record whose id is already present replaces the stored record (the spec's
upsert contract for `insert`; the chromadb package's own duplicate-id
behavior is not decided by repository code — see the notes on claim C2); a
fresh id is appended. -/
def addRecord (recs : List StoredRecord) (r : StoredRecord) : List StoredRecord :=
  if recs.any (fun r0 => r0.id == r.id) then
    recs.map (fun r0 => if r0.id == r.id then r else r0)
  else recs ++ [r]

/-- Modelled from the spec: the chromadb `add` call over a whole batch. -/
def clientAdd (recs : List StoredRecord) (batch : List StoredRecord) :
    List StoredRecord :=
  batch.foldl addRecord recs

/-- Whether some stored record carries the given id. -/
def idPresent (recs : List StoredRecord) (x : String) : Bool :=
  recs.any (fun r => r.id == x)

/-- The value a where-clause condition compares with: either the payload of
a one-field equality-operator object, or the condition itself (the bare
scalar shorthand). -/
def condTarget : JsVal → JsVal
  | .obj [("$eq", v)] => v
  | v => v

/-- Modelled from the spec: the backend's evaluation of one field condition
of a where-clause — equality of the record's metadata value with the
condition's target; any other shape (in particular an operator object other
than equality) matches nothing. -/
def matchCond (m : List (String × JsVal)) (k : String) (c : JsVal) : Bool :=
  match metaGet m k with
  | some w => scalarEq w (condTarget c)
  | none => false

/-- Modelled from the spec: the backend's evaluation of a where-clause — a
conjunction of per-field conditions; no clause matches everything; a
non-object clause matches nothing. -/
def matchWhere (w : Option JsVal) (r : StoredRecord) : Bool :=
  match w with
  | none => true
  | some (.obj fields) => fields.all (fun kv => matchCond r.metadata kv.1 kv.2)
  | some _ => false

/-- Modelled from the spec: the backend's distance between a query vector
and a stored embedding — squared Euclidean distance, chromadb's default
space. -/
def sqDist (v w : List ℤ) : ℤ :=
  (List.zipWith (fun a b => (a - b) ^ 2) v w).sum

/-- Ordering of scored records by ascending distance. -/
def distLe (p q : StoredRecord × ℤ) : Prop := p.2 ≤ q.2

instance : DecidableRel distLe :=
  fun p q => inferInstanceAs (Decidable (p.2 ≤ q.2))

instance : IsTotal (StoredRecord × ℤ) distLe :=
  ⟨fun p q => le_total p.2 q.2⟩

instance : IsTrans (StoredRecord × ℤ) distLe :=
  ⟨fun _ _ _ h1 h2 => le_trans h1 h2⟩

/-- Modelled from the spec: the chromadb `query` call — the records matching
the where-clause, paired with their distance to the query vector, ordered by
ascending distance and truncated to the requested number of results.  The
client returns the columns (ids, metadatas, documents, distances)
positionally aligned; they are modelled as a single list of rows. -/
def collQuery (recs : List StoredRecord) (qv : List ℤ) (nResults : Nat)
    (w : Option JsVal) : List (StoredRecord × ℤ) :=
  (((recs.filter (matchWhere w)).map
    (fun r => (r, sqDist qv r.embedding))).insertionSort distLe).take nResults

/-- Modelled from the spec: the chromadb `get` call — the records matching
the where-clause, truncated to the limit. -/
def clientGet (recs : List StoredRecord) (w : Option JsVal) (limit : Nat) :
    List StoredRecord :=
  (recs.filter (matchWhere w)).take limit

/-- Modelled from the spec: the chromadb `delete` call — removes the records
whose id is listed; absent ids are ignored. -/
def clientDelete (recs : List StoredRecord) (ids : List String) :
    List StoredRecord :=
  recs.filter (fun r => !(ids.contains r.id))

/-- The adapter's state: the backend plus the class's collection cache
(`private collections: Map<string, Collection>`; a cached chromadb
`Collection` handle is identified by its name). -/
structure AdapterState where
  backend : BackendState
  cache : List String

/-- The cache only holds handles to collections that exist on the backend;
every adapter operation preserves this. -/
def coherent (s : AdapterState) : Bool :=
  s.cache.all (fun n => backendHas s.backend n)

/-- `Map.set` on the name-keyed cache. -/
def cacheAdd (cache : List String) (n : String) : List String :=
  if cache.contains n then cache else cache ++ [n]

/-- Translated from `createCollection`: the collection metadata — the
description defaulting (JavaScript disjunction: the empty string is falsy)
and the dimension stored as a string. -/
def mkCollectionMeta (description : Option String) (n : String) (dimension : Nat) :
    List (String × JsVal) :=
  let d := match description with
    | some s => if s == "" then "Collection for " ++ n else s
    | none => "Collection for " ++ n
  [("description", JsVal.str d), ("dimension", JsVal.str (toString dimension))]

/-- Translated from `ChromaDBVectorDatabase.createCollection`: try the
client's create; on an "already exists" error fall back to the client's
`getOrCreateCollection`; any other error is rethrown.  The resulting handle
is cached. -/
def createCollection (s : AdapterState) (n : String) (dimension : Nat)
    (description : Option String) : Except ClientErr AdapterState :=
  match clientCreateCollection s.backend n (mkCollectionMeta description n dimension) with
  | Except.ok b => Except.ok ⟨b, cacheAdd s.cache n⟩
  | Except.error e =>
    if e.isAlreadyExists then
      Except.ok ⟨clientGetOrCreateCollection s.backend n, cacheAdd s.cache n⟩
    else Except.error e

/-- Translated from `ChromaDBVectorDatabase.getOrCreateCollection`: a cached
handle is returned directly; otherwise the client's getOrCreate is tried —
`clientOk` stands for that call succeeding rather than throwing — and on
failure the adapter falls back to `createCollection` with the hard-coded
dimension 1536.  The model's `createCollection` never fails, so the rethrow
branch, which returns the state unchanged, is unreachable. -/
def getOrCreateCollection (clientOk : Bool) (s : AdapterState) (n : String) :
    AdapterState × String :=
  if s.cache.contains n then (s, n)
  else if clientOk then
    (⟨clientGetOrCreateCollection s.backend n, cacheAdd s.cache n⟩, n)
  else
    match createCollection s n 1536 none with
    | Except.ok s' => (s', n)
    | Except.error _ => (s, n)

/-- The four positionally aligned arrays an `insert` transmits to the
backend's `add`. -/
structure InsertPayload where
  ids : List String
  embeddings : List (List ℤ)
  metadatas : List (List (String × JsVal))
  documents : List String

/-- Translated from `insert`: the metadata object built for one document;
the trailing spread of `doc.metadata` shadows the base fields under
`metaGet`'s last-wins lookup. -/
def mkDocMeta (d : VectorDocument) : List (String × JsVal) :=
  [("content", JsVal.str d.content),
   ("relativePath", JsVal.str d.relativePath),
   ("startLine", JsVal.str (toString d.startLine)),
   ("endLine", JsVal.str (toString d.endLine)),
   ("fileExtension", JsVal.str d.fileExtension)] ++ d.metadata

/-- Translated from `insert`: the payload is built from every document of
the batch, with no validation of any kind. -/
def insertPayload (documents : List VectorDocument) : InsertPayload :=
  ⟨documents.map (fun d => d.id),
   documents.map (fun d => d.vector),
   documents.map mkDocMeta,
   documents.map (fun d => d.content)⟩

/-- The stored record corresponding to one inserted document. -/
def mkRecord (d : VectorDocument) : StoredRecord :=
  ⟨d.id, d.vector, mkDocMeta d, d.content⟩

/-- The rows of a payload, rebuilt from its positionally aligned columns. -/
def payloadRecords (p : InsertPayload) : List StoredRecord :=
  (((p.ids.zip p.embeddings).zip p.metadatas).zip p.documents).map
    (fun x => ⟨x.1.1.1, x.1.1.2, x.1.2, x.2⟩)

/-- Translated from `ChromaDBVectorDatabase.insert`: resolve the collection
through `getOrCreateCollection`, build the payload and hand it to the
backend's `add`. -/
def insert (clientOk : Bool) (s : AdapterState) (n : String)
    (documents : List VectorDocument) : AdapterState :=
  let p := getOrCreateCollection clientOk s n
  ⟨updateColl p.1.backend p.2
    (fun recs => clientAdd recs (payloadRecords (insertPayload documents))),
   p.1.cache⟩

/-- Modelled from the spec: `SearchOptions` of `types.ts` (repository code
not under src/); the adapter reads `topK` and `filter`. -/
structure SearchOptions where
  topK : Option Nat
  filter : Option (List (String × JsVal))

/-- JavaScript disjunction-with-default on an optional number: absent and
zero are both falsy. -/
def jsOr (o : Option Nat) (d : Nat) : Nat :=
  match o with
  | some k => if k == 0 then d else k
  | none => d

/-- Translated from `search`: the documented normalization of a backend
distance into a relevance score. -/
def scoreOfDistance (d : ℤ) : ℤ := 1 - d

/-- Modelled from the spec: `VectorSearchResult` of `types.ts`. -/
structure VectorSearchResult where
  document : VectorDocument
  score : ℤ

/-- JavaScript string-field read with empty-string default. -/
def strMeta (m : List (String × JsVal)) (k : String) : String :=
  match metaGet m k with
  | some (JsVal.str v) => v
  | _ => ""

/-- JavaScript `parseInt` of a metadata field, with zero default. -/
def natMeta (m : List (String × JsVal)) (k : String) : Nat :=
  match metaGet m k with
  | some (JsVal.str v) => (v.toNat?).getD 0
  | _ => 0

/-- Translated from `search`: one result row.  The returned document carries
the query vector (the source returns `vector: queryVector`), the stored
text, the metadata fields read back with JavaScript defaulting, and the
score `1 - distance`. -/
def mkSearchResult (qv : List ℤ) (row : StoredRecord × ℤ) : VectorSearchResult :=
  ⟨⟨row.1.id, qv, row.1.document,
    strMeta row.1.metadata "relativePath",
    natMeta row.1.metadata "startLine",
    natMeta row.1.metadata "endLine",
    strMeta row.1.metadata "fileExtension",
    row.1.metadata⟩,
   scoreOfDistance row.2⟩

/-- Translated from `ChromaDBVectorDatabase.search`: resolve the collection,
query the backend with `topK` (default 10) results and the translated
filter, and map the rows to results.  The source's guard returning the empty
list when the reply lacks one of the included columns cannot fire in the
model, where the columns are always present. -/
def search (clientOk : Bool) (s : AdapterState) (n : String)
    (queryVector : List ℤ) (options : SearchOptions) :
    AdapterState × List VectorSearchResult :=
  let p := getOrCreateCollection clientOk s n
  let rows := collQuery ((recordsOf p.1.backend p.2).getD []) queryVector
      (jsOr options.topK 10) (buildWhereClause options.filter)
  (p.1, rows.map (mkSearchResult queryVector))

/-- Modelled from the spec: the payload of a `HybridSearchRequest` — a dense
vector for the dense request, a text for a lexical one. -/
inductive ReqData where
  | vec : List ℤ → ReqData
  | text : String → ReqData

/-- The unchecked TypeScript cast of a request payload to a number array. -/
def ReqData.asVec : ReqData → List ℤ
  | .vec v => v
  | .text _ => []

/-- Modelled from the spec: `HybridSearchRequest` of `types.ts`: the field a
request searches, its payload and a per-request limit. -/
structure HybridSearchRequest where
  anns_field : String
  data : ReqData
  limit : Nat

/-- Modelled from the spec: `HybridSearchOptions` of `types.ts`; the adapter
reads only `limit`. -/
structure HybridSearchOptions where
  limit : Option Nat

/-- Modelled from the spec: `HybridSearchResult` of `types.ts`. -/
structure HybridSearchResult where
  document : VectorDocument
  score : ℤ

/-- Translated from `ChromaDBVectorDatabase.hybridSearch`: find the dense
request (the one whose field is "vector"), throw when there is none, run the
plain dense `search` with the options' limit (falling back to the dense
request's own) and no filter, and return its results relabelled one-to-one.
No lexical request is ever read. -/
def hybridSearch (clientOk : Bool) (s : AdapterState) (n : String)
    (searchRequests : List HybridSearchRequest) (options : HybridSearchOptions) :
    Except String (AdapterState × List HybridSearchResult) :=
  match searchRequests.find? (fun req => req.anns_field == "vector") with
  | none => Except.error "Dense vector search request is required for hybrid search"
  | some denseRequest =>
    let p := search clientOk s n denseRequest.data.asVec
      ⟨some (jsOr options.limit denseRequest.limit), none⟩
    Except.ok (p.1, p.2.map (fun r => ⟨r.document, r.score⟩))

/-- Translated from `ChromaDBVectorDatabase.delete`: resolve the collection
and delete the listed ids. -/
def delete (clientOk : Bool) (s : AdapterState) (n : String) (ids : List String) :
    AdapterState :=
  let p := getOrCreateCollection clientOk s n
  ⟨updateColl p.1.backend p.2 (fun recs => clientDelete recs ids), p.1.cache⟩

/-- Translated from `ChromaDBVectorDatabase.query`: resolve the collection,
`get` with the parsed filter expression and the limit (default 100), and
flatten each record to id, content and its metadata fields; `outputFields`
is accepted and ignored, as in the source. -/
def query (clientOk : Bool) (s : AdapterState) (n : String) (filter : String)
    (outputFields : List String) (limit : Option Nat) :
    AdapterState × List (String × String × List (String × JsVal)) :=
  let p := getOrCreateCollection clientOk s n
  let got := clientGet ((recordsOf p.1.backend p.2).getD [])
      (parseFilterExpression filter) (jsOr limit 100)
  (p.1, got.map (fun r => (r.id, r.document, r.metadata)))

end ChromaDB

namespace OpenRouter

/-- Translated from `OpenRouterEmbeddingConfig`. -/
structure OpenRouterEmbeddingConfig where
  apiKey : String
  baseUrl : Option String
  model : String

/-- Translated from `EmbeddingVector` as built in `embedBatch`: a vector and
its length. -/
structure EmbeddingVector where
  vector : List ℤ
  dimension : Nat

/-- Translated from `OpenRouterEmbedding`: the token budget. -/
def maxTokens : Nat := 8192

/-- Modelled from the spec: `preprocessTexts` of the `Embedding` base class
(`base-embedding.ts`, repository code not under src/) — each input text is
truncated deterministically to the provider's token budget, preserving the
list's length and order. -/
def truncateText (t : String) : String :=
  String.mk (t.data.take maxTokens)

/-- Modelled from the spec: `preprocessTexts` applies the truncation to each
input text. -/
def preprocessTexts (texts : List String) : List String :=
  texts.map truncateText

/-- Translated from `OpenRouterEmbedding.embedBatch`, with the remote
embeddings endpoint modelled from the spec: the service `svc` embeds each
input of the configured model, the reply's data array carries one item per
input in request order, and a non-ok HTTP status is thrown as an error.
Each reply item is mapped to its vector and that vector's length, exactly as
in the source. -/
def embedBatch (svc : String → String → List ℤ) (ok : Bool)
    (cfg : OpenRouterEmbeddingConfig) (texts : List String) :
    Except String (List EmbeddingVector) :=
  if ok then
    Except.ok ((preprocessTexts texts).map
      (fun t => ⟨svc cfg.model t, (svc cfg.model t).length⟩))
  else Except.error "OpenRouter API error"

/-- Translated from `OpenRouterEmbedding.embed`: embed a single text through
`embedBatch` and take the first reply item. -/
def embed (svc : String → String → List ℤ) (ok : Bool)
    (cfg : OpenRouterEmbeddingConfig) (text : String) :
    Except String (Option EmbeddingVector) :=
  (embedBatch svc ok cfg [text]).map (fun l => l.head?)

/-- Translated from `OpenRouterEmbedding.getDimension`: the static
model-to-dimension table. -/
def modelDimensions : List (String × Nat) :=
  [("nomic-ai/nomic-embed-text-v1.5", 768),
   ("nomic-ai/nomic-embed-text-v1", 768),
   ("text-embedding-3-small", 1536),
   ("text-embedding-3-large", 3072),
   ("text-embedding-ada-002", 1536),
   ("voyage-01", 1024),
   ("voyage-code-2", 1536),
   ("voyage-code-3", 1536),
   ("gte-large", 1024),
   ("gte-base", 768),
   ("gte-small", 384),
   ("bge-large-en-v1.5", 1024),
   ("bge-base-en-v1.5", 768),
   ("bge-small-en-v1.5", 384),
   ("mxbai-embed-large", 1024),
   ("mxbai-embed-base", 768)]

/-- Translated from `OpenRouterEmbedding.getDimension`: the table lookup
with the 1536 default (no table entry is zero, so disjunction-with-default
coincides with the absent-key default). -/
def getDimension (cfg : OpenRouterEmbeddingConfig) : Nat :=
  ((modelDimensions.find? (fun p => p.1 == cfg.model)).map (fun p => p.2)).getD 1536

/-- Translated from `OpenRouterEmbedding.detectDimension`: it returns
`this.getDimension()` — no request of any kind is issued. -/
def detectDimension (cfg : OpenRouterEmbeddingConfig) : Nat :=
  getDimension cfg

end OpenRouter

namespace Spec

/-- Lexicographic comparison of character lists, used for the spec's
deterministic tie-break. -/
def charsLe : List Char → List Char → Bool
  | [], _ => true
  | _ :: _, [] => false
  | a :: as, b :: bs => if a = b then charsLe as bs else decide (a < b)

/-- Descending fused score, ties broken by ascending document id. -/
def fuseRelB (p q : String × ℤ) : Bool :=
  decide (q.2 < p.2) || (decide (q.2 = p.2) && charsLe p.1.data q.1.data)

def fuseRel (p q : String × ℤ) : Prop := fuseRelB p q = true

instance : DecidableRel fuseRel :=
  fun p q => instDecidableEqBool (fuseRelB p q) true

/-- Written from the spec's words, for comparison with the code (not a
translation of any source function): hybrid fusion by a weighted sum of the
two normalized scores, recomputed per candidate document present in either
list, a missing entry contributing zero, ordered by descending fused score
with ties broken by ascending document id. -/
def specHybridFusion (wd wl : ℤ) (dense lex : List (String × ℤ)) :
    List (String × ℤ) :=
  let ids := (dense.map Prod.fst ++ lex.map Prod.fst).dedup
  (ids.map (fun i =>
    (i, wd * (((dense.find? (fun p => p.1 == i)).map Prod.snd).getD 0)
      + wl * (((lex.find? (fun p => p.1 == i)).map Prod.snd).getD 0)))).insertionSort fuseRel

end Spec

namespace ChromaDB

theorem recordsOf_isSome (b : BackendState) (n : String) :
    (recordsOf b n).isSome = backendHas b n := by
  induction b with
  | nil => rfl
  | cons c cs ih =>
    unfold recordsOf backendHas at *
    by_cases h : (c.name == n) = true
    · simp [List.find?_cons, h]
    · simp only [List.find?_cons, h, cond_false, List.any_cons, Bool.false_or]
      exact ih

theorem recordsOf_updateColl (b : BackendState) (n : String)
    (f : List StoredRecord → List StoredRecord) :
    recordsOf (updateColl b n f) n = (recordsOf b n).map f := by
  induction b with
  | nil => rfl
  | cons c cs ih =>
    unfold recordsOf updateColl at ih ⊢
    simp only [List.map_cons]
    by_cases h : (c.name == n) = true
    · rw [if_pos h]
      simp only [List.find?_cons, h, cond_true]
      rfl
    · rw [Bool.not_eq_true] at h
      rw [if_neg (by simp [h])]
      simp only [List.find?_cons, h, cond_false]
      exact ih

theorem backendHas_updateColl (b : BackendState) (n m : String)
    (f : List StoredRecord → List StoredRecord) :
    backendHas (updateColl b n f) m = backendHas b m := by
  unfold backendHas updateColl
  rw [List.any_map]
  congr 1
  funext c
  by_cases h : (c.name == n) = true <;> simp [Function.comp, h]

theorem backendHas_append_self (b : BackendState) (c : BCollection) :
    backendHas (b ++ [c]) c.name = true := by
  unfold backendHas
  simp

theorem recordsOf_append_absent (b : BackendState) (c : BCollection)
    (h : backendHas b c.name = false) :
    recordsOf (b ++ [c]) c.name = some c.records := by
  induction b with
  | nil => simp [recordsOf]
  | cons d ds ih =>
    unfold backendHas at h ih
    simp only [List.any_cons, Bool.or_eq_false_iff] at h
    unfold recordsOf at *
    rw [List.cons_append]
    simp only [List.find?_cons, h.1, cond_false]
    exact ih h.2

theorem collMetaOf_append_absent (b : BackendState) (c : BCollection)
    (h : backendHas b c.name = false) :
    collMetaOf (b ++ [c]) c.name = some c.metadata := by
  induction b with
  | nil => simp [collMetaOf]
  | cons d ds ih =>
    unfold backendHas at h ih
    simp only [List.any_cons, Bool.or_eq_false_iff] at h
    unfold collMetaOf at *
    rw [List.cons_append]
    simp only [List.find?_cons, h.1, cond_false]
    exact ih h.2

theorem clientGetOrCreate_has (b : BackendState) (n : String) :
    backendHas (clientGetOrCreateCollection b n) n = true := by
  unfold clientGetOrCreateCollection
  by_cases h : backendHas b n = true
  · simp [h]
  · simp only [h, if_false]
    simpa using backendHas_append_self b ⟨n, [], []⟩

theorem clientGetOrCreate_of_has (b : BackendState) (n : String)
    (h : backendHas b n = true) : clientGetOrCreateCollection b n = b := by
  unfold clientGetOrCreateCollection
  simp [h]

theorem clientGetOrCreate_records (b : BackendState) (n : String) :
    recordsOf (clientGetOrCreateCollection b n) n
      = some ((recordsOf b n).getD []) := by
  unfold clientGetOrCreateCollection
  by_cases h : backendHas b n = true
  · simp only [h, if_true]
    have hs := recordsOf_isSome b n
    rw [h] at hs
    obtain ⟨r, hr⟩ := Option.isSome_iff_exists.1 hs
    simp [hr]
  · simp only [h, if_false]
    have hs := recordsOf_isSome b n
    rw [eq_false_of_ne_true h] at hs
    have hnone : recordsOf b n = none := Option.not_isSome_iff_eq_none.1 (by simp [hs])
    rw [hnone]
    simpa using recordsOf_append_absent b ⟨n, [], []⟩ (eq_false_of_ne_true h)

end ChromaDB

namespace ChromaDB

theorem createCollection_of_has (s : AdapterState) (n : String) (d : Nat)
    (desc : Option String) (h : backendHas s.backend n = true) :
    createCollection s n d desc = Except.ok ⟨s.backend, cacheAdd s.cache n⟩ := by
  unfold createCollection clientCreateCollection
  simp [h, ClientErr.isAlreadyExists, clientGetOrCreate_of_has s.backend n h]

theorem createCollection_of_absent (s : AdapterState) (n : String) (d : Nat)
    (desc : Option String) (h : backendHas s.backend n = false) :
    createCollection s n d desc =
      Except.ok ⟨s.backend ++ [⟨n, mkCollectionMeta desc n d, []⟩], cacheAdd s.cache n⟩ := by
  unfold createCollection clientCreateCollection
  simp [h]

/-- One case analysis covering every branch of the adapter's
`getOrCreateCollection`. -/
theorem getOrCreateCollection_eq (k : Bool) (s : AdapterState) (n : String) :
    getOrCreateCollection k s n =
      (if s.cache.contains n then s
       else if k then ⟨clientGetOrCreateCollection s.backend n, cacheAdd s.cache n⟩
       else if backendHas s.backend n then ⟨s.backend, cacheAdd s.cache n⟩
       else ⟨s.backend ++ [⟨n, mkCollectionMeta none n 1536, []⟩], cacheAdd s.cache n⟩,
       n) := by
  unfold getOrCreateCollection
  by_cases h1 : s.cache.contains n = true
  · rw [if_pos h1, if_pos h1]
  · rw [if_neg h1, if_neg h1]
    by_cases h2 : k = true
    · rw [if_pos h2, if_pos h2]
    · rw [if_neg h2, if_neg h2]
      by_cases h3 : backendHas s.backend n = true
      · rw [createCollection_of_has s n 1536 none h3, if_pos h3]
      · rw [Bool.not_eq_true] at h3
        rw [createCollection_of_absent s n 1536 none h3, if_neg (by simp [h3])]

theorem getOrCreateCollection_records_present (k : Bool) (s : AdapterState)
    (n : String) (r : List StoredRecord) (h : recordsOf s.backend n = some r) :
    recordsOf (getOrCreateCollection k s n).1.backend n = some r := by
  have hhas : backendHas s.backend n = true := by
    rw [← recordsOf_isSome, h]
    rfl
  rw [getOrCreateCollection_eq]
  dsimp only
  by_cases h1 : s.cache.contains n = true
  · rw [if_pos h1]
    exact h
  · rw [if_neg h1]
    by_cases h2 : k = true
    · rw [if_pos h2]
      dsimp only
      rw [clientGetOrCreate_of_has s.backend n hhas]
      exact h
    · rw [if_neg h2, if_pos hhas]
      exact h

theorem coherent_contains (s : AdapterState) (n : String)
    (hc : coherent s = true) (h : s.cache.contains n = true) :
    backendHas s.backend n = true := by
  unfold coherent at hc
  rw [List.all_eq_true] at hc
  exact hc n (by simpa using h)

theorem getOrCreateCollection_has (k : Bool) (s : AdapterState) (n : String)
    (hc : coherent s = true) :
    backendHas (getOrCreateCollection k s n).1.backend n = true := by
  rw [getOrCreateCollection_eq]
  dsimp only
  by_cases h1 : s.cache.contains n = true
  · rw [if_pos h1]
    exact coherent_contains s n hc h1
  · rw [if_neg h1]
    by_cases h2 : k = true
    · rw [if_pos h2]
      exact clientGetOrCreate_has s.backend n
    · rw [if_neg h2]
      by_cases h3 : backendHas s.backend n = true
      · rw [if_pos h3]
        exact h3
      · rw [if_neg h3]
        exact backendHas_append_self s.backend ⟨n, mkCollectionMeta none n 1536, []⟩

theorem idPresent_addRecord_self (recs : List StoredRecord) (r : StoredRecord) :
    idPresent (addRecord recs r) r.id = true := by
  unfold addRecord idPresent
  by_cases h : (recs.any fun r0 => r0.id == r.id) = true
  · rw [if_pos h]
    rw [List.any_eq_true] at h ⊢
    obtain ⟨r0, hmem, hid⟩ := h
    exact ⟨r, List.mem_map.2 ⟨r0, hmem, by simp [hid]⟩, by simp⟩
  · rw [if_neg h]
    simp

theorem idPresent_addRecord_mono (recs : List StoredRecord) (r : StoredRecord)
    (x : String) (h : idPresent recs x = true) :
    idPresent (addRecord recs r) x = true := by
  unfold addRecord idPresent at *
  by_cases hdup : (recs.any fun r0 => r0.id == r.id) = true
  · rw [if_pos hdup]
    rw [List.any_eq_true] at h ⊢
    obtain ⟨r0, hmem, hid⟩ := h
    by_cases he : (r0.id == r.id) = true
    · refine ⟨r, List.mem_map.2 ⟨r0, hmem, by simp [he]⟩, ?_⟩
      have h1 : r0.id = r.id := by simpa using he
      have h2 : r0.id = x := by simpa using hid
      simp [← h1, h2]
    · rw [Bool.not_eq_true] at he
      exact ⟨r0, List.mem_map.2 ⟨r0, hmem, by simp [he]⟩, hid⟩
  · rw [if_neg hdup]
    rw [List.any_eq_true] at h ⊢
    obtain ⟨r0, hmem, hid⟩ := h
    exact ⟨r0, List.mem_append_left _ hmem, hid⟩

theorem idPresent_clientAdd_mono (batch recs : List StoredRecord) (x : String)
    (h : idPresent recs x = true) : idPresent (clientAdd recs batch) x = true := by
  induction batch generalizing recs with
  | nil => exact h
  | cons b bs ih =>
    unfold clientAdd at ih ⊢
    simp only [List.foldl_cons]
    exact ih (addRecord recs b) (idPresent_addRecord_mono recs b x h)

theorem idPresent_clientAdd_of_mem (batch recs : List StoredRecord)
    (r : StoredRecord) (h : r ∈ batch) :
    idPresent (clientAdd recs batch) r.id = true := by
  induction batch generalizing recs with
  | nil => cases h
  | cons b bs ih =>
    unfold clientAdd at ih ⊢
    simp only [List.foldl_cons]
    rcases List.mem_cons.1 h with rfl | hbs
    · exact idPresent_clientAdd_mono bs (addRecord recs r) r.id
        (idPresent_addRecord_self recs r)
    · exact ih (addRecord recs b) hbs

theorem payloadRecords_insertPayload (docs : List VectorDocument) :
    payloadRecords (insertPayload docs) = docs.map mkRecord := by
  induction docs with
  | nil => rfl
  | cons d ds ih =>
    unfold payloadRecords insertPayload at ih ⊢
    dsimp only at ih ⊢
    simp only [List.map_cons, List.zip_cons_cons]
    exact congrArg (List.cons _) ih

theorem sqDist_self (v : List ℤ) : sqDist v v = 0 := by
  induction v with
  | nil => rfl
  | cons a as ih =>
    unfold sqDist at ih ⊢
    simp only [List.zipWith_cons_cons, List.sum_cons, sub_self, ih, add_zero]
    norm_num

theorem sqDist_nonneg (v w : List ℤ) : 0 ≤ sqDist v w := by
  induction v generalizing w with
  | nil => simp [sqDist]
  | cons a as ih =>
    cases w with
    | nil => simp [sqDist]
    | cons b bs =>
      have h := ih bs
      unfold sqDist at h ⊢
      simp only [List.zipWith_cons_cons, List.sum_cons]
      exact add_nonneg (sq_nonneg _) h

end ChromaDB

namespace ChromaDB

theorem getOrCreateCollection_snd (k : Bool) (s : AdapterState) (n : String) :
    (getOrCreateCollection k s n).2 = n := by
  rw [getOrCreateCollection_eq]

theorem recordsOf_insert_goc (k : Bool) (s : AdapterState) (n : String)
    (docs : List VectorDocument) (r : List StoredRecord)
    (h : recordsOf (getOrCreateCollection k s n).1.backend n = some r) :
    recordsOf (insert k s n docs).backend n
      = some (clientAdd r (docs.map mkRecord)) := by
  unfold insert
  dsimp only
  rw [getOrCreateCollection_snd, recordsOf_updateColl, h,
    payloadRecords_insertPayload]
  rfl

theorem search_mem_shape (k : Bool) (s : AdapterState) (n : String)
    (qv : List ℤ) (o : SearchOptions) (res : VectorSearchResult)
    (h : res ∈ (search k s n qv o).2) :
    ∃ rec : StoredRecord, res = mkSearchResult qv (rec, sqDist qv rec.embedding) := by
  unfold search collQuery at h
  dsimp only at h
  obtain ⟨row, hrow, rfl⟩ := List.mem_map.1 h
  have h2 := List.mem_of_mem_take hrow
  have h3 := (List.perm_insertionSort distLe _).mem_iff.1 h2
  obtain ⟨rec, _, rfl⟩ := List.mem_map.1 h3
  exact ⟨rec, rfl⟩

theorem search_score_le_one (k : Bool) (s : AdapterState) (n : String)
    (qv : List ℤ) (o : SearchOptions) (res : VectorSearchResult)
    (h : res ∈ (search k s n qv o).2) : res.score ≤ 1 := by
  obtain ⟨rec, rfl⟩ := search_mem_shape k s n qv o res h
  have hd := sqDist_nonneg qv rec.embedding
  unfold mkSearchResult scoreOfDistance
  dsimp only
  omega

theorem search_sorted (k : Bool) (s : AdapterState) (n : String)
    (qv : List ℤ) (o : SearchOptions) :
    ((search k s n qv o).2).Pairwise (fun a b => b.score ≤ a.score) := by
  unfold search collQuery
  dsimp only
  refine List.Pairwise.map _ (fun a b hab => ?_)
    (List.Pairwise.sublist (List.take_sublist _ _)
      (List.sorted_insertionSort distLe _))
  unfold mkSearchResult scoreOfDistance
  dsimp only
  unfold distLe at hab
  omega

end ChromaDB

/-- C1, counterexample: the claim that `insert` validates vector lengths
against the collection's declared dimension and rejects the whole batch with
`DimensionMismatch` is false.  Concretely: after creating collection "c"
with dimension 3, inserting a document whose vector has length 2 transmits
that vector to the backend unchanged (first conjunct), the call succeeds,
and the document ends up stored (third conjunct), while the collection's
declared dimension is 3 (second conjunct). -/
theorem claim_C1_counterexample :
    (ChromaDB.insertPayload
      [⟨"x", [1, 2], "body", "a.ts", 1, 2, ".ts", []⟩]).embeddings = [[1, 2]]
    ∧ (ChromaDB.createCollection ⟨[], []⟩ "c" 3 none).map
        (fun s1 => ChromaDB.dimensionMetaOf s1.backend "c")
      = Except.ok (some (JsVal.str "3"))
    ∧ (ChromaDB.createCollection ⟨[], []⟩ "c" 3 none).map
        (fun s1 => ChromaDB.recordsOf
          (ChromaDB.insert true s1 "c"
            [⟨"x", [1, 2], "body", "a.ts", 1, 2, ".ts", []⟩]).backend "c")
      = Except.ok (some [⟨"x", [1, 2],
          [("content", JsVal.str "body"), ("relativePath", JsVal.str "a.ts"),
           ("startLine", JsVal.str "1"), ("endLine", JsVal.str "2"),
           ("fileExtension", JsVal.str ".ts")], "body"⟩]) :=
  ⟨rfl, rfl, rfl⟩

/-- C1, amended: `insert` performs no dimension validation at all.  The
embeddings transmitted to the backend are exactly the batch's vectors,
whatever the collection's declared dimension, and after the call every
document of the batch has a record with its id in the collection (in the
modelled backend, which accepts whatever is transmitted). -/
theorem claim_C1_amended (clientOk : Bool) (s : ChromaDB.AdapterState)
    (n : String) (docs : List ChromaDB.VectorDocument)
    (hc : ChromaDB.coherent s = true) :
    (ChromaDB.insertPayload docs).embeddings = docs.map (fun d => d.vector)
    ∧ ∀ d ∈ docs,
        ChromaDB.idPresent
          ((ChromaDB.recordsOf (ChromaDB.insert clientOk s n docs).backend n).getD [])
          d.id = true := by
  refine ⟨rfl, fun d hd => ?_⟩
  have hhas := ChromaDB.getOrCreateCollection_has clientOk s n hc
  have hs := ChromaDB.recordsOf_isSome
    (ChromaDB.getOrCreateCollection clientOk s n).1.backend n
  rw [hhas] at hs
  obtain ⟨r, hr⟩ := Option.isSome_iff_exists.1 hs
  rw [ChromaDB.recordsOf_insert_goc clientOk s n docs r hr]
  exact ChromaDB.idPresent_clientAdd_of_mem _ r (ChromaDB.mkRecord d)
    (List.mem_map.2 ⟨d, hd, rfl⟩)

/-- C1, witness for the amended theorem at a concrete coherent state. -/
theorem claim_C1_witness :
    ChromaDB.coherent ⟨[⟨"c", [], []⟩], ["c"]⟩ = true
    ∧ ((ChromaDB.insertPayload
          [⟨"x", [1, 2], "body", "a.ts", 1, 2, ".ts", []⟩]).embeddings
        = [[1, 2]]
      ∧ ∀ d ∈ [(⟨"x", [1, 2], "body", "a.ts", 1, 2, ".ts", []⟩ :
            ChromaDB.VectorDocument)],
          ChromaDB.idPresent
            ((ChromaDB.recordsOf (ChromaDB.insert true ⟨[⟨"c", [], []⟩], ["c"]⟩ "c"
              [⟨"x", [1, 2], "body", "a.ts", 1, 2, ".ts", []⟩]).backend "c").getD [])
            d.id = true) :=
  ⟨rfl, claim_C1_amended true ⟨[⟨"c", [], []⟩], ["c"]⟩ "c"
    [⟨"x", [1, 2], "body", "a.ts", 1, 2, ".ts", []⟩] rfl⟩

namespace ChromaDB

theorem filter_matchWhere_none (l : List StoredRecord) :
    l.filter (matchWhere (buildWhereClause none)) = l := by
  induction l with
  | nil => rfl
  | cons r rs ih =>
    rw [List.filter_cons,
      if_pos (show matchWhere (buildWhereClause none) r = true from rfl), ih]

end ChromaDB

/-- C4, counterexample: the self-retrieval part of the claim is false as
stated.  With a record "a0" already stored under vector [1, 0], inserting
document "d1" with the same vector and then searching with that vector and
limit 5 (so limit at least 1) returns "a0" at rank 1 — both records are at
distance 0, the backend keeps the pre-existing one first — not the
just-inserted "d1" the claim promises. -/
theorem claim_C4_counterexample :
    ((ChromaDB.search true
        (ChromaDB.insert true ⟨[⟨"c", [], [⟨"a0", [1, 0], [], "A"⟩]⟩], ["c"]⟩
          "c" [⟨"d1", [1, 0], "hello", "a.ts", 0, 1, ".ts", []⟩])
        "c" [1, 0] ⟨some 5, none⟩).2).map (fun r => (r.document.id, r.score))
      = [("a0", 1), ("d1", 1)]
    ∧ ("a0" : String) ≠ "d1" :=
  ⟨rfl, by decide⟩

/-- C4, amended: the normalized score is computed from the backend distance
by `score = 1 - distance` (third conjunct); it is strictly antitone in the
distance, so a higher score always means a smaller distance (fourth
conjunct); search results come back ordered by descending score (fifth
conjunct); no result can score above 1, the value attained at distance zero
(second conjunct); and after inserting a document D into a collection none
of whose records shares D's id or sits at distance zero from D's vector —
the tie case is the counterexample — searching with D's own vector and a
limit of at least one returns D at rank 1 with the maximum score 1 (first
conjunct). -/
theorem claim_C4_amended (s : ChromaDB.AdapterState) (c : String)
    (D : ChromaDB.VectorDocument) (kk : Nat)
    (recs : List ChromaDB.StoredRecord) (hk : 1 ≤ kk)
    (hc : ChromaDB.recordsOf s.backend c = some recs)
    (hid : ∀ r ∈ recs, (r.id == D.id) = false)
    (htie : ∀ r ∈ recs, ChromaDB.sqDist D.vector r.embedding ≠ 0) :
    ((ChromaDB.search true (ChromaDB.insert true s c [D]) c D.vector
        ⟨some kk, none⟩).2).head?.map (fun r => (r.document.id, r.score))
      = some (D.id, 1)
    ∧ (∀ (k' : Bool) (s' : ChromaDB.AdapterState) (n : String) (qv : List ℤ)
        (o : ChromaDB.SearchOptions) (res : ChromaDB.VectorSearchResult),
        res ∈ (ChromaDB.search k' s' n qv o).2 → res.score ≤ 1)
    ∧ (∀ d : ℤ, ChromaDB.scoreOfDistance d = 1 - d)
    ∧ (∀ d1 d2 : ℤ, d1 < d2 →
        ChromaDB.scoreOfDistance d2 < ChromaDB.scoreOfDistance d1)
    ∧ (∀ (k' : Bool) (s' : ChromaDB.AdapterState) (n : String) (qv : List ℤ)
        (o : ChromaDB.SearchOptions),
        ((ChromaDB.search k' s' n qv o).2).Pairwise
          (fun a b => b.score ≤ a.score)) := by
  refine ⟨?_, fun k' s' n qv o res h => ChromaDB.search_score_le_one k' s' n qv o res h,
    fun d => rfl,
    fun d1 d2 h => by unfold ChromaDB.scoreOfDistance; omega,
    fun k' s' n qv o => ChromaDB.search_sorted k' s' n qv o⟩
  have hany : (recs.any fun r0 => r0.id == (ChromaDB.mkRecord D).id) = false := by
    rw [List.any_eq_false]
    intro r hr
    have hfalse := hid r hr
    simp only [ChromaDB.mkRecord]
    simp [hfalse]
  have hrec1 : ChromaDB.recordsOf (ChromaDB.insert true s c [D]).backend c
      = some (recs ++ [ChromaDB.mkRecord D]) := by
    rw [ChromaDB.recordsOf_insert_goc true s c [D] recs
      (ChromaDB.getOrCreateCollection_records_present true s c recs hc)]
    unfold ChromaDB.clientAdd
    simp only [List.map_cons, List.map_nil, List.foldl_cons, List.foldl_nil]
    unfold ChromaDB.addRecord
    rw [if_neg (by simp only [hany]; decide)]
  unfold ChromaDB.search
  dsimp only
  rw [ChromaDB.getOrCreateCollection_snd,
    ChromaDB.getOrCreateCollection_records_present true _ c _ hrec1]
  have hkk : ChromaDB.jsOr (some kk) 10 = kk := by
    have hnz : kk ≠ 0 := by omega
    simp [ChromaDB.jsOr, hnz]
  rw [hkk]
  unfold ChromaDB.collQuery
  rw [show (Option.getD (some (recs ++ [ChromaDB.mkRecord D])) [])
      = recs ++ [ChromaDB.mkRecord D] from rfl]
  rw [ChromaDB.filter_matchWhere_none]
  set L := (recs ++ [ChromaDB.mkRecord D]).map
    (fun r => (r, ChromaDB.sqDist D.vector r.embedding)) with hL
  have hDmem : (ChromaDB.mkRecord D, (0 : ℤ)) ∈ L := by
    rw [hL]
    refine List.mem_map.2 ⟨ChromaDB.mkRecord D,
      List.mem_append_right _ (List.mem_singleton.2 rfl), ?_⟩
    rw [show (ChromaDB.mkRecord D).embedding = D.vector from rfl,
      ChromaDB.sqDist_self]
  have hperm := List.perm_insertionSort ChromaDB.distLe L
  have hsort := List.sorted_insertionSort ChromaDB.distLe L
  rcases hSL : List.insertionSort ChromaDB.distLe L with _ | ⟨h0, t⟩
  · rw [hSL] at hperm
    rw [← hperm.nil_eq] at hDmem
    cases hDmem
  · rw [hSL] at hperm hsort
    have h0mem : ∃ r, r ∈ recs ++ [ChromaDB.mkRecord D]
        ∧ h0 = (r, ChromaDB.sqDist D.vector r.embedding) := by
      have hxL : h0 ∈ L := hperm.subset (List.mem_cons_self _ _)
      rw [hL] at hxL
      obtain ⟨r, hr, heq⟩ := List.mem_map.1 hxL
      exact ⟨r, hr, heq.symm⟩
    obtain ⟨r0, hr0, hre⟩ := h0mem
    have hDin : (ChromaDB.mkRecord D, (0 : ℤ)) ∈ h0 :: t :=
      hperm.mem_iff.2 hDmem
    have hle : h0.2 ≤ 0 := by
      rcases List.mem_cons.1 hDin with he | ht
      · exact le_of_eq (congrArg Prod.snd he.symm)
      · exact (List.pairwise_cons.1 hsort).1 _ ht
    have hge : 0 ≤ h0.2 := by
      rw [hre]
      exact ChromaDB.sqDist_nonneg _ _
    have h02 : h0.2 = 0 := le_antisymm hle hge
    have hsq : ChromaDB.sqDist D.vector r0.embedding = 0 := by
      have hs2 := congrArg Prod.snd hre
      rw [h02] at hs2
      exact hs2.symm
    have hr0D : r0 = ChromaDB.mkRecord D := by
      rcases List.mem_append.1 hr0 with hin | hinD
      · exact absurd hsq (htie r0 hin)
      · exact List.mem_singleton.1 hinD
    have hh0 : h0 = (ChromaDB.mkRecord D, (0 : ℤ)) := by
      rw [hre, hr0D]
      rw [show (ChromaDB.mkRecord D).embedding = D.vector from rfl,
        ChromaDB.sqDist_self]
    rcases kk with _ | m
    · omega
    · rw [hh0, List.take_succ_cons, List.map_cons, List.head?_cons]
      rfl

/-- C4, witness for the amended theorem: a collection holding one record
whose id differs from the inserted document's and whose vector is at
positive distance from the query. -/
theorem claim_C4_witness :
    (1 ≤ 5
      ∧ ChromaDB.recordsOf ([⟨"c", [], [⟨"a0", [5, 0], [], "A"⟩]⟩] :
          ChromaDB.BackendState) "c" = some [⟨"a0", [5, 0], [], "A"⟩]
      ∧ (∀ r ∈ [(⟨"a0", [5, 0], [], "A"⟩ : ChromaDB.StoredRecord)],
          (r.id == "d1") = false)
      ∧ (∀ r ∈ [(⟨"a0", [5, 0], [], "A"⟩ : ChromaDB.StoredRecord)],
          ChromaDB.sqDist [1, 0] r.embedding ≠ 0))
    ∧ ((ChromaDB.search true
        (ChromaDB.insert true ⟨[⟨"c", [], [⟨"a0", [5, 0], [], "A"⟩]⟩], []⟩ "c"
          [⟨"d1", [1, 0], "hello", "a.ts", 0, 1, ".ts", []⟩]) "c" [1, 0]
        ⟨some 5, none⟩).2).head?.map (fun r => (r.document.id, r.score))
      = some ("d1", 1) :=
  ⟨⟨by omega, rfl, by decide, by decide⟩,
    (claim_C4_amended ⟨[⟨"c", [], [⟨"a0", [5, 0], [], "A"⟩]⟩], []⟩ "c"
      ⟨"d1", [1, 0], "hello", "a.ts", 0, 1, ".ts", []⟩ 5
      [⟨"a0", [5, 0], [], "A"⟩] (by omega) rfl (by decide) (by decide)).1⟩

/-- C3, counterexample: `hybridSearch` does not fuse the dense and lexical
lists.  On a collection holding documents "a" and "b", a dense request whose
vector matches "a" (limit 1) together with a lexical request aimed at "b"
returns only "a" with its dense score (first conjunct), whereas the weighted
sum fusion written from the spec's words over the dense list produced by the
code and a lexical list ranking "b" keeps "b" as a candidate (second and
third conjuncts). -/
theorem claim_C3_counterexample :
    (ChromaDB.hybridSearch true
      ⟨[⟨"c", [], [⟨"a", [1, 0], [], "A"⟩, ⟨"b", [0, 1], [], "B"⟩]⟩], ["c"]⟩
      "c" [⟨"vector", ChromaDB.ReqData.vec [1, 0], 1⟩,
           ⟨"sparse", ChromaDB.ReqData.text "keyword b", 10⟩] ⟨none⟩).map
      (fun p => p.2.map (fun r => (r.document.id, r.score)))
      = Except.ok [("a", 1)]
    ∧ (Spec.specHybridFusion 1 1 [("a", 1)] [("b", 1)]).map Prod.fst
      = ["a", "b"]
    ∧ ¬ ("b" ∈ (["a"] : List String)) :=
  ⟨rfl, rfl, by decide⟩

/-- C3, amended: `hybridSearch` ignores every request other than the first
one whose field is "vector": the result is exactly the dense `search`'s
result list relabelled one-to-one, any trailing (e.g. lexical) requests have
no influence, and when no dense request is present the call fails. -/
theorem claim_C3_amended (clientOk : Bool) (s : ChromaDB.AdapterState)
    (n : String) (dreq : ChromaDB.HybridSearchRequest)
    (rest : List ChromaDB.HybridSearchRequest)
    (opts : ChromaDB.HybridSearchOptions)
    (hd : dreq.anns_field = "vector") :
    ChromaDB.hybridSearch clientOk s n (dreq :: rest) opts
      = ChromaDB.hybridSearch clientOk s n [dreq] opts
    ∧ ChromaDB.hybridSearch clientOk s n (dreq :: rest) opts
      = Except.ok ((ChromaDB.search clientOk s n dreq.data.asVec
            ⟨some (ChromaDB.jsOr opts.limit dreq.limit), none⟩).1,
          ((ChromaDB.search clientOk s n dreq.data.asVec
            ⟨some (ChromaDB.jsOr opts.limit dreq.limit), none⟩).2).map
            (fun r => ⟨r.document, r.score⟩))
    ∧ ∀ reqs : List ChromaDB.HybridSearchRequest,
        (∀ r ∈ reqs, r.anns_field ≠ "vector") →
        ChromaDB.hybridSearch clientOk s n reqs opts
          = Except.error "Dense vector search request is required for hybrid search" := by
  have hb : (dreq.anns_field == "vector") = true := by simp [hd]
  refine ⟨?_, ?_, ?_⟩
  · unfold ChromaDB.hybridSearch
    simp only [List.find?_cons, hb, cond_true]
  · unfold ChromaDB.hybridSearch
    simp only [List.find?_cons, hb, cond_true]
  · intro reqs hreqs
    unfold ChromaDB.hybridSearch
    rw [List.find?_eq_none.2 (fun x hx => by simp [hreqs x hx])]

/-- C3, witness for the amended theorem at a concrete dense request. -/
theorem claim_C3_witness :
    ((⟨"vector", ChromaDB.ReqData.vec [1, 0], 1⟩ :
        ChromaDB.HybridSearchRequest).anns_field = "vector")
    ∧ ChromaDB.hybridSearch true ⟨[], []⟩ "c"
        [⟨"vector", ChromaDB.ReqData.vec [1, 0], 1⟩,
         ⟨"sparse", ChromaDB.ReqData.text "kw", 7⟩] ⟨none⟩
      = ChromaDB.hybridSearch true ⟨[], []⟩ "c"
        [⟨"vector", ChromaDB.ReqData.vec [1, 0], 1⟩] ⟨none⟩ :=
  ⟨rfl, (claim_C3_amended true ⟨[], []⟩ "c"
    ⟨"vector", ChromaDB.ReqData.vec [1, 0], 1⟩
    [⟨"sparse", ChromaDB.ReqData.text "kw", 7⟩] ⟨none⟩ rfl).1⟩

/-- C5, counterexample: creating collection "c" with dimension 3 and then
calling `createCollection` again with dimension 5 succeeds (the result is
`Except.ok`, not a `DimensionMismatch` failure — the adapter has no such
error at all), and the collection's declared dimension silently stays
"3". -/
theorem claim_C5_counterexample :
    ((ChromaDB.createCollection ⟨[], []⟩ "c" 3 none).bind
      (fun s1 => ChromaDB.createCollection s1 "c" 5 none)).map
      (fun s2 => ChromaDB.dimensionMetaOf s2.backend "c")
      = Except.ok (some (JsVal.str "3")) := rfl

/-- C5, amended: `createCollection` on a name that already exists succeeds
for every requested dimension, conflicting or not, and leaves the backend —
its declared dimension metadata and its records included — entirely
unchanged; no `DimensionMismatch` is raised. -/
theorem claim_C5_amended (s : ChromaDB.AdapterState) (n : String)
    (d2 : Nat) (desc : Option String)
    (h : ChromaDB.backendHas s.backend n = true) :
    ChromaDB.createCollection s n d2 desc
      = Except.ok ⟨s.backend, ChromaDB.cacheAdd s.cache n⟩ :=
  ChromaDB.createCollection_of_has s n d2 desc h

/-- C5, witness for the amended theorem on a concrete one-collection
state. -/
theorem claim_C5_witness :
    ChromaDB.backendHas ([⟨"c", [("dimension", JsVal.str "3")], []⟩] :
        ChromaDB.BackendState) "c" = true
    ∧ ChromaDB.createCollection ⟨[⟨"c", [("dimension", JsVal.str "3")], []⟩], []⟩
        "c" 5 none
      = Except.ok ⟨[⟨"c", [("dimension", JsVal.str "3")], []⟩], ["c"]⟩ :=
  ⟨rfl, claim_C5_amended ⟨[⟨"c", [("dimension", JsVal.str "3")], []⟩], []⟩
    "c" 5 none rfl⟩

/-- C6: `createCollection` is idempotent.  From any state the first call
succeeds and leaves the collection present; and from any state in which the
collection exists — in particular after the first call and any amount of
inserted data — a repeated call succeeds and leaves the backend, records
included, entirely unchanged. -/
theorem claim_C6_idempotentCreate (s : ChromaDB.AdapterState) (n : String) (d : Nat)
    (desc : Option String) :
    (∃ s1, ChromaDB.createCollection s n d desc = Except.ok s1
      ∧ ChromaDB.backendHas s1.backend n = true)
    ∧ ∀ t : ChromaDB.AdapterState, ChromaDB.backendHas t.backend n = true →
        ChromaDB.createCollection t n d desc
          = Except.ok ⟨t.backend, ChromaDB.cacheAdd t.cache n⟩ := by
  refine ⟨?_, fun t ht => ChromaDB.createCollection_of_has t n d desc ht⟩
  by_cases h : ChromaDB.backendHas s.backend n = true
  · exact ⟨⟨s.backend, ChromaDB.cacheAdd s.cache n⟩,
      ChromaDB.createCollection_of_has s n d desc h, h⟩
  · rw [Bool.not_eq_true] at h
    exact ⟨⟨s.backend ++ [⟨n, ChromaDB.mkCollectionMeta desc n d, []⟩],
      ChromaDB.cacheAdd s.cache n⟩,
      ChromaDB.createCollection_of_absent s n d desc h,
      ChromaDB.backendHas_append_self s.backend
        ⟨n, ChromaDB.mkCollectionMeta desc n d, []⟩⟩

/-- C6, witness: create "c" twice with dimension 4 from the empty state; the
second call leaves the records stored between the calls untouched. -/
theorem claim_C6_witness :
    ChromaDB.backendHas
      ([⟨"c", [], [⟨"x", [1], [], "X"⟩]⟩] : ChromaDB.BackendState) "c" = true
    ∧ ChromaDB.createCollection ⟨[⟨"c", [], [⟨"x", [1], [], "X"⟩]⟩], ["c"]⟩
        "c" 4 none
      = Except.ok ⟨[⟨"c", [], [⟨"x", [1], [], "X"⟩]⟩], ["c"]⟩ :=
  ⟨rfl, (claim_C6_idempotentCreate ⟨[⟨"c", [], [⟨"x", [1], [], "X"⟩]⟩], ["c"]⟩
    "c" 4 none).2 ⟨[⟨"c", [], [⟨"x", [1], [], "X"⟩]⟩], ["c"]⟩ rfl⟩

/-- C7, counterexample: for a model absent from the provider's
model-to-dimension table, `detectDimension` does not probe — it returns the
static default 1536 even when the service actually produces vectors of a
different length (here 3, as one batch call shows). -/
theorem claim_C7_counterexample :
    OpenRouter.detectDimension ⟨"key", none, "my/unknown-model"⟩ = 1536
    ∧ (OpenRouter.modelDimensions.find?
        (fun p => p.1 == "my/unknown-model")) = none
    ∧ OpenRouter.embedBatch (fun _ _ => [0, 0, 0]) true
        ⟨"key", none, "my/unknown-model"⟩ ["probe"]
      = Except.ok [⟨[0, 0, 0], 3⟩]
    ∧ (1536 : Nat) ≠ 3 :=
  ⟨rfl, rfl, rfl, by omega⟩

/-- C7, amended: `detectDimension` issues no request of any kind: it returns
`getDimension()`, i.e. the static table entry for the configured model, and
the hard-coded default 1536 whenever the model is absent from the table. -/
theorem claim_C7_amended (cfg : OpenRouter.OpenRouterEmbeddingConfig) :
    OpenRouter.detectDimension cfg = OpenRouter.getDimension cfg
    ∧ ((OpenRouter.modelDimensions.find? (fun p => p.1 == cfg.model)) = none →
        OpenRouter.detectDimension cfg = 1536) := by
  refine ⟨rfl, fun h => ?_⟩
  unfold OpenRouter.detectDimension OpenRouter.getDimension
  rw [h]
  rfl

/-- C7, witness for the amended theorem at a concrete unknown model. -/
theorem claim_C7_witness :
    (OpenRouter.modelDimensions.find?
      (fun p => p.1 == "my/unknown-model")) = none
    ∧ OpenRouter.detectDimension ⟨"key", none, "my/unknown-model"⟩ = 1536 :=
  ⟨rfl, (claim_C7_amended ⟨"key", none, "my/unknown-model"⟩).2 rfl⟩

/-- C9: with the remote service modelled as answering one embedding per
input in request order, `embedBatch` returns exactly the per-text embeddings
of the preprocessed inputs, in order: one output per input, and the i-th
output is the embedding of the (truncated) i-th input text. -/
theorem claim_C9_batchOrder (svc : String → String → List ℤ)
    (cfg : OpenRouter.OpenRouterEmbeddingConfig) (texts : List String) :
    OpenRouter.embedBatch svc true cfg texts
      = Except.ok ((OpenRouter.preprocessTexts texts).map
          (fun t => ⟨svc cfg.model t, (svc cfg.model t).length⟩))
    ∧ ∀ out, OpenRouter.embedBatch svc true cfg texts = Except.ok out →
        out.length = texts.length
        ∧ ∀ (i : Nat) (h1 : i < out.length) (h2 : i < texts.length),
            out[i] = ⟨svc cfg.model (OpenRouter.truncateText texts[i]),
              (svc cfg.model (OpenRouter.truncateText texts[i])).length⟩ := by
  refine ⟨rfl, fun out hout => ?_⟩
  have hout2 : Except.ok ((OpenRouter.preprocessTexts texts).map
      (fun t => (⟨svc cfg.model t, (svc cfg.model t).length⟩ :
        OpenRouter.EmbeddingVector)))
      = (Except.ok out : Except String (List OpenRouter.EmbeddingVector)) := hout
  have hL := Except.ok.inj hout2
  subst hL
  constructor
  · simp [OpenRouter.preprocessTexts]
  · intro i h1 h2
    simp [OpenRouter.preprocessTexts]

/-- C9, witness: a two-text batch against a concrete service. -/
theorem claim_C9_witness :
    OpenRouter.embedBatch (fun _ t => [(t.length : ℤ)]) true
        ⟨"key", none, "m"⟩ ["ab", "xyz"]
      = Except.ok [⟨[2], 1⟩, ⟨[3], 1⟩]
    ∧ ([(⟨[2], 1⟩ : OpenRouter.EmbeddingVector), ⟨[3], 1⟩]).length
      = (["ab", "xyz"]).length :=
  ⟨rfl, ((claim_C9_batchOrder (fun _ t => [(t.length : ℤ)])
    ⟨"key", none, "m"⟩ ["ab", "xyz"]).2 [⟨[2], 1⟩, ⟨[3], 1⟩] rfl).1⟩

/-- C8, counterexample: the filter string "language go" is neither JSON nor
of the form key=value, so `parseFilterExpression` yields no clause at all,
and the `query` built on it returns every record of the collection — the
"ts"-tagged one included — instead of failing with `UnsupportedFilter`: an
unparseable filter is treated as no filter. -/
theorem claim_C8_counterexample :
    ChromaDB.parseFilterExpression "language go" = none
    ∧ (ChromaDB.query true
        ⟨[⟨"c", [], [⟨"r1", [1], [("language", JsVal.str "ts")], "T"⟩,
                     ⟨"r2", [2], [("language", JsVal.str "go")], "G"⟩]⟩], ["c"]⟩
        "c" "language go" [] (some 10)).2.map (fun r => r.1)
      = ["r1", "r2"] :=
  ⟨rfl, rfl⟩

/-- C8, amended: `buildWhereClause` turns a flat field-to-value mapping into
a conjunction of equality tests (first two conjuncts); `parseFilterExpression`
passes any JSON-parseable filter string through verbatim — operator objects
included, never raising any `UnsupportedFilter` (third conjunct); a
non-JSON string with exactly one equals sign becomes a single equality test
(fourth conjunct); and any other unparseable filter yields no clause, i.e.
is treated as no filter at all (fifth conjunct). -/
theorem claim_C8_amended :
    (ChromaDB.buildWhereClause none = none)
    ∧ (∀ f, ChromaDB.buildWhereClause (some f)
        = some (JsVal.obj (f.map (fun kv => (kv.1, JsVal.obj [("$eq", kv.2)])))))
    ∧ (∀ s v, jsonParse s = some v → ChromaDB.parseFilterExpression s = some v)
    ∧ (∀ s a b, jsonParse s = none → splitChar '=' s = [a, b] →
        ChromaDB.parseFilterExpression s
          = some (JsVal.obj [(jsTrim a, JsVal.obj [("$eq", JsVal.str (jsTrim b))])]))
    ∧ (∀ s, jsonParse s = none → (splitChar '=' s).length ≠ 2 →
        ChromaDB.parseFilterExpression s = none) := by
  refine ⟨rfl, fun f => rfl, ?_, ?_, ?_⟩
  · intro s v h
    unfold ChromaDB.parseFilterExpression
    rw [h]
  · intro s a b hn hsp
    unfold ChromaDB.parseFilterExpression
    rw [hn, hsp]
  · intro s hn hlen
    unfold ChromaDB.parseFilterExpression
    rw [hn]
    rcases hsp : splitChar '=' s with _ | ⟨a, _ | ⟨b, _ | ⟨c, rest⟩⟩⟩
    · rfl
    · rfl
    · exact absurd (by rw [hsp]; rfl) hlen
    · rfl

/-- C8, witness for the amended theorem: a concrete operator filter is
passed through verbatim, and a concrete key=value filter becomes one
equality test. -/
theorem claim_C8_witness :
    jsonParse "\x7b\"price\":\x7b\"$gt\":\"5\"\x7d\x7d"
      = some (JsVal.obj [("price", JsVal.obj [("$gt", JsVal.str "5")])])
    ∧ ChromaDB.parseFilterExpression "\x7b\"price\":\x7b\"$gt\":\"5\"\x7d\x7d"
      = some (JsVal.obj [("price", JsVal.obj [("$gt", JsVal.str "5")])])
    ∧ ChromaDB.parseFilterExpression "lang = go"
      = some (JsVal.obj [("lang", JsVal.obj [("$eq", JsVal.str "go")])]) :=
  ⟨rfl,
    claim_C8_amended.2.2.1 "\x7b\"price\":\x7b\"$gt\":\"5\"\x7d\x7d"
      (JsVal.obj [("price", JsVal.obj [("$gt", JsVal.str "5")])]) rfl,
    claim_C8_amended.2.2.2.1 "lang = go" "lang " " go" rfl rfl⟩

/-- C10: every data-plane operation resolves its collection through
`getOrCreateCollection`, so none can fail with a missing-collection error.
First conjunct: a search on an absent, uncached collection returns the empty
result list and leaves a newly created empty collection behind.  Second
conjunct: when creation is reached through the fallback path (the client's
getOrCreate failing), the collection is created with the hard-coded
dimension 1536.  Third conjunct: insert, search, delete and query all leave
the target collection present on the backend. -/
theorem claim_C10_getOrCreate :
    (∀ (s : ChromaDB.AdapterState) (n : String) (qv : List ℤ)
        (opts : ChromaDB.SearchOptions),
        s.cache.contains n = false → ChromaDB.backendHas s.backend n = false →
        (ChromaDB.search true s n qv opts).2 = []
        ∧ ChromaDB.recordsOf (ChromaDB.search true s n qv opts).1.backend n
            = some [])
    ∧ (∀ (s : ChromaDB.AdapterState) (n : String),
        s.cache.contains n = false → ChromaDB.backendHas s.backend n = false →
        ChromaDB.dimensionMetaOf
          (ChromaDB.getOrCreateCollection false s n).1.backend n
          = some (JsVal.str "1536"))
    ∧ (∀ (s : ChromaDB.AdapterState) (n : String)
        (docs : List ChromaDB.VectorDocument) (ids : List String)
        (f : String) (ofs : List String) (lim : Option Nat) (qv : List ℤ)
        (opts : ChromaDB.SearchOptions), ChromaDB.coherent s = true →
        ChromaDB.backendHas (ChromaDB.insert true s n docs).backend n = true
        ∧ ChromaDB.backendHas (ChromaDB.search true s n qv opts).1.backend n = true
        ∧ ChromaDB.backendHas (ChromaDB.delete true s n ids).backend n = true
        ∧ ChromaDB.backendHas (ChromaDB.query true s n f ofs lim).1.backend n
            = true) := by
  refine ⟨?_, ?_, ?_⟩
  · intro s n qv opts h1 h2
    have hgoc : (ChromaDB.getOrCreateCollection true s n).1.backend
        = s.backend ++ [⟨n, [], []⟩] := by
      rw [ChromaDB.getOrCreateCollection_eq]
      dsimp only
      rw [if_neg (by simp only [h1]; decide), if_pos rfl]
      unfold ChromaDB.clientGetOrCreateCollection
      rw [if_neg (by simp [h2])]
    have hrec : ChromaDB.recordsOf
        (ChromaDB.getOrCreateCollection true s n).1.backend n = some [] := by
      rw [hgoc]
      exact ChromaDB.recordsOf_append_absent s.backend ⟨n, [], []⟩ h2
    constructor
    · unfold ChromaDB.search
      dsimp only
      rw [ChromaDB.getOrCreateCollection_snd, hrec]
      simp [ChromaDB.collQuery]
    · unfold ChromaDB.search
      dsimp only
      exact hrec
  · intro s n h1 h2
    have hgoc : (ChromaDB.getOrCreateCollection false s n).1.backend
        = s.backend ++ [⟨n, ChromaDB.mkCollectionMeta none n 1536, []⟩] := by
      rw [ChromaDB.getOrCreateCollection_eq]
      dsimp only
      rw [if_neg (by simp only [h1]; decide), if_neg (by simp),
        if_neg (by simp only [h2]; decide)]
    rw [hgoc]
    unfold ChromaDB.dimensionMetaOf
    rw [ChromaDB.collMetaOf_append_absent s.backend
      ⟨n, ChromaDB.mkCollectionMeta none n 1536, []⟩ h2]
    rfl
  · intro s n docs ids f ofs lim qv opts hc
    refine ⟨?_, ?_, ?_, ?_⟩
    · unfold ChromaDB.insert
      dsimp only
      rw [ChromaDB.getOrCreateCollection_snd, ChromaDB.backendHas_updateColl]
      exact ChromaDB.getOrCreateCollection_has true s n hc
    · unfold ChromaDB.search
      dsimp only
      exact ChromaDB.getOrCreateCollection_has true s n hc
    · unfold ChromaDB.delete
      dsimp only
      rw [ChromaDB.getOrCreateCollection_snd, ChromaDB.backendHas_updateColl]
      exact ChromaDB.getOrCreateCollection_has true s n hc
    · unfold ChromaDB.query
      dsimp only
      exact ChromaDB.getOrCreateCollection_has true s n hc

/-- C10, witness: the empty adapter state and collection "c". -/
theorem claim_C10_witness :
    ((([] : List String).contains "c" = false
        ∧ ChromaDB.backendHas ([] : ChromaDB.BackendState) "c" = false)
      ∧ (ChromaDB.search true ⟨[], []⟩ "c" [1, 0] ⟨none, none⟩).2 = []
        ∧ ChromaDB.recordsOf
            (ChromaDB.search true ⟨[], []⟩ "c" [1, 0] ⟨none, none⟩).1.backend "c"
          = some [])
    ∧ ChromaDB.dimensionMetaOf
        (ChromaDB.getOrCreateCollection false ⟨[], []⟩ "c").1.backend "c"
      = some (JsVal.str "1536") :=
  ⟨⟨⟨rfl, rfl⟩, claim_C10_getOrCreate.1 ⟨[], []⟩ "c" [1, 0] ⟨none, none⟩ rfl rfl⟩,
    claim_C10_getOrCreate.2.1 ⟨[], []⟩ "c" rfl rfl⟩
